import Mathlib

/-!
Shallow embedding of the sharded pagination engine of the red-planet
repository (`src/modules/shared/pagination.ts`, presented in
`src/06_pagination_system_.md`), together with theorems settling the claims
about it.

Numbers are modelled as `Int` (the raw query values are parsed integers);
optional values as `Option`; the asynchronous `count` call of a
`CountableCollection` as a pure function from the query parameters, a
collection being characterised by how many records it holds in each shard.
JavaScript `NaN` results of `parseInt` are modelled as `none` (no claim
exercises a `NaN`-producing input).
-/

namespace Pagination

/-- Source: `const PAGE_SIZE = 10;` -/
def PAGE_SIZE : Int := 10

/-- Source: `const FIRST_PAGE = 1;` -/
def FIRST_PAGE : Int := 1

/-- Source: `const DEFAULT_SHARD = 0;` -/
def DEFAULT_SHARD : Int := 0

/-- The `Page` object of `shared.types.ts`: `{ num, size, shard }` with
`shard` optional. -/
structure Page where
  num : Int
  size : Int
  shard : Option Int
deriving DecidableEq

/-- Source: `getPage(pageNum?: number, shard?: number): Page`.
The source computes `num` as `pageNum ? pageNum : FIRST_PAGE`: a JavaScript
truthiness test, so an absent value and an explicit `0` both default to
`FIRST_PAGE`. `size` is always the fixed `PAGE_SIZE`; `shard` is passed
through unchanged, absence included. -/
def getPage (pageNum : Option Int) (shard : Option Int) : Page :=
  { num := match pageNum with
      | some n => if n ≠ 0 then n else FIRST_PAGE
      | none => FIRST_PAGE
    size := PAGE_SIZE
    shard := shard }

/-- The record Prisma receives from `queryParameters`:
`{ skip, take, where: { shard } }`. -/
structure QueryParams where
  skip : Int
  take : Int
  shard : Int
deriving DecidableEq

/-- Source: `queryParameters({ page })` returns `{ take: page.size, skip:
(page.num - 1) * page.size, where: { shard: page.shard ?? DEFAULT_SHARD } }`. -/
def queryParameters (page : Page) : QueryParams :=
  { take := page.size
    skip := (page.num - 1) * page.size
    shard := page.shard.getD DEFAULT_SHARD }

/-- A `CountableCollection` is characterised by the number of records it
holds in each shard (the `where: { shard }` filter selects exactly those). -/
abbrev CountableCollection := Int → Nat

/-- Source: `collection.count(queryParameters({ page }))` — the number of records
matching the shard filter that remain after skipping `skip` of them, capped
at `take`. -/
def countOnPage (collection : CountableCollection) (page : Page) : Int :=
  let q := queryParameters page
  max 0 (min q.take ((collection q.shard : Int) - q.skip))

/-- Source: `getNextPage({ currentPage, collection })` — probe the next page of the
current shard; failing that, roll over to the first page of the next shard
unless `MAX_SHARDS` is exceeded. -/
def getNextPage (MAX_SHARDS : Int) (collection : CountableCollection)
    (currentPage : Page) : Option Page :=
  let potentialNextPageInShard := getPage (some (currentPage.num + 1)) currentPage.shard
  if countOnPage collection potentialNextPageInShard > 0 then
    some potentialNextPageInShard
  else
    let nextShardNum := currentPage.shard.getD DEFAULT_SHARD + 1
    if nextShardNum > MAX_SHARDS then
      none
    else
      let potentialPageInNextShard := getPage (some FIRST_PAGE) (some nextShardNum)
      if countOnPage collection potentialPageInNextShard > 0 then
        some potentialPageInNextShard
      else
        none

/-- Modelled from the spec, step by step (§4.3), for refinement comparison
with `getNextPage`: candidates are built literally as
`{number: currentPage.number + 1, size: currentPage.size, shard: currentPage.shard}`
and `{number: 1, size: currentPage.size, shard: nextShard}`. -/
def specNextPage (MAX_SHARDS : Int) (collection : CountableCollection)
    (currentPage : Page) : Option Page :=
  let candidate : Page := ⟨currentPage.num + 1, currentPage.size, currentPage.shard⟩
  if countOnPage collection candidate > 0 then
    some candidate
  else
    let nextShard := currentPage.shard.getD 0 + 1
    if nextShard > MAX_SHARDS then
      none
    else
      let candidate2 : Page := ⟨1, currentPage.size, some nextShard⟩
      if countOnPage collection candidate2 > 0 then
        some candidate2
      else
        none

/-- Fuel-driven computation of the decimal digits of a natural number,
most significant first; `n` digits of fuel always suffice for `n`. -/
def natToDigitsGo : Nat → Nat → List Char
  | _, 0 => []
  | 0, _ + 1 => []
  | fuel + 1, n + 1 =>
      natToDigitsGo fuel ((n + 1) / 10) ++ [Char.ofNat (48 + (n + 1) % 10)]

/-- Decimal digit characters of a positive natural number, most significant
first (`natToDigits 0 = []`). Models how a JavaScript number renders inside
a template literal. -/
def natToDigits (n : Nat) : List Char := natToDigitsGo n n

/-- Decimal rendering of a natural number. -/
def natToString (n : Nat) : String :=
  if n = 0 then "0" else ⟨natToDigits n⟩

/-- Rendering of an integer inside a template literal such as
`page=${nextPage.num}`. -/
def intToString (i : Int) : String :=
  if i < 0 then "-" ++ natToString i.natAbs else natToString i.natAbs

/-- Accumulate the leading decimal digits of a character list, stopping at
the first non-digit, as `parseInt(value, 10)` does. -/
def parseDigitsAux : List Char → Nat → Nat
  | [], acc => acc
  | c :: cs, acc =>
      if c.isDigit then parseDigitsAux cs (10 * acc + (c.toNat - 48)) else acc

/-- Model of `parseInt(value, 10)` on an already-trimmed string: an optional sign
followed by at least one digit yields the value of the longest digit run;
anything else is `NaN`, modelled as `none`. -/
def jsParseInt (s : String) : Option Int :=
  match s.data with
  | [] => none
  | c :: cs =>
    if c = '-' then
      match cs with
      | [] => none
      | d :: _ => if d.isDigit then some (-(parseDigitsAux cs 0 : Int)) else none
    else if c = '+' then
      match cs with
      | [] => none
      | d :: _ => if d.isDigit then some ((parseDigitsAux cs 0 : Int)) else none
    else if c.isDigit then some ((parseDigitsAux (c :: cs) 0 : Int)) else none

/-- Source: `parseOptionalInt(value?: string)` is `value ? parseInt(value, 10)
: undefined`; the empty string is falsy, like an absent value. -/
def parseOptionalInt (value : Option String) : Option Int :=
  match value with
  | none => none
  | some s => if s = "" then none else jsParseInt s

/-- The part `nextLink` appends to the query string for the shard:
`&shard=...` when `nextPage.shard !== undefined`, nothing otherwise. -/
def shardQueryPart (p : Page) : String :=
  match p.shard with
  | some s => "&shard=" ++ intToString s
  | none => ""

/-- Source: `nextLink({ nextPage, request })` — `undefined` when there is no next
page, otherwise the base URL followed by `?page=...` and, only when the
shard is present, `&shard=...`. -/
def nextLink (base : String) (nextPage : Option Page) : Option String :=
  match nextPage with
  | none => none
  | some p => some (base ++ "?" ++ ("page=" ++ intToString p.num ++ shardQueryPart p))

/-- Modelled from the spec: the routing layer (an external collaborator of
the pagination core) extracts the raw `page` and `shard` query parameter
strings from a request URL. For a link rendered by `nextLink` these are the
rendered page number and, exactly when `shardQueryPart` appended one, the
rendered shard. -/
def linkRawParams (p : Page) : Option String × Option String :=
  (some (intToString p.num), p.shard.map intToString)

/-- The collection of the spec's Scenario B: five records in shard 0, five
in shard 1, nothing elsewhere. -/
def collB : CountableCollection :=
  fun s => if s = 0 then 5 else if s = 1 then 5 else 0

/-- The collection of the spec's Scenario C: five records in shard 0, shard
1 empty, five records in shard 2, nothing elsewhere. -/
def collC : CountableCollection :=
  fun s => if s = 0 then 5 else if s = 2 then 5 else 0

/-- A collection holding `n` records, all of them in shard 0. -/
def collSingleShard (n : Nat) : CountableCollection :=
  fun s => if s = 0 then n else 0

end Pagination

namespace Pagination

lemma digitChar_toNat {d : Nat} (h : d < 10) : (Char.ofNat (48 + d)).toNat = 48 + d := by
  interval_cases d <;> decide

lemma digitChar_isDigit {d : Nat} (h : d < 10) : (Char.ofNat (48 + d)).isDigit = true := by
  interval_cases d <;> decide

lemma natToDigitsGo_congr :
    ∀ f₁ f₂ n, n ≤ f₁ → n ≤ f₂ → natToDigitsGo f₁ n = natToDigitsGo f₂ n := by
  intro f₁
  induction f₁ with
  | zero =>
    intro f₂ n h₁ _
    interval_cases n
    cases f₂ <;> rfl
  | succ g ih =>
    intro f₂ n h₁ h₂
    cases n with
    | zero => cases f₂ <;> rfl
    | succ m =>
      cases f₂ with
      | zero => omega
      | succ g₂ =>
        show natToDigitsGo g ((m + 1) / 10) ++ _ = natToDigitsGo g₂ ((m + 1) / 10) ++ _
        rw [ih g₂ ((m + 1) / 10) (by omega) (by omega)]

lemma natToDigits_succ (n : Nat) (h : n ≠ 0) :
    natToDigits n = natToDigits (n / 10) ++ [Char.ofNat (48 + n % 10)] := by
  cases n with
  | zero => omega
  | succ m =>
    show natToDigitsGo m ((m + 1) / 10) ++ _ = natToDigitsGo ((m + 1) / 10) ((m + 1) / 10) ++ _
    rw [natToDigitsGo_congr m ((m + 1) / 10) ((m + 1) / 10) (by omega) le_rfl]

lemma natToDigits_isDigit :
    ∀ n, ∀ c ∈ natToDigits n, c.isDigit = true := by
  intro n
  induction n using Nat.strong_induction_on with
  | _ n ih =>
    intro c hc
    rcases Nat.eq_zero_or_pos n with h0 | hpos
    · subst h0; simp [natToDigits, natToDigitsGo] at hc
    · rw [natToDigits_succ n (by omega)] at hc
      rcases List.mem_append.mp hc with h | h
      · exact ih (n / 10) (by omega) c h
      · rw [List.mem_singleton] at h
        subst h
        exact digitChar_isDigit (Nat.mod_lt _ (by norm_num))

lemma parseDigitsAux_append (l₁ l₂ : List Char) (hd : ∀ c ∈ l₁, c.isDigit = true) :
    ∀ acc, parseDigitsAux (l₁ ++ l₂) acc = parseDigitsAux l₂ (parseDigitsAux l₁ acc) := by
  induction l₁ with
  | nil => intro acc; rfl
  | cons c cs ih =>
    intro acc
    have hc : c.isDigit = true := hd c (List.mem_cons_self c cs)
    simp only [List.cons_append, parseDigitsAux, hc, if_true]
    exact ih (fun x hx => hd x (List.mem_cons_of_mem c hx)) _

lemma parseDigitsAux_natToDigits :
    ∀ n acc, parseDigitsAux (natToDigits n) acc = acc * 10 ^ (natToDigits n).length + n := by
  intro n
  induction n using Nat.strong_induction_on with
  | _ n ih =>
    intro acc
    rcases Nat.eq_zero_or_pos n with h0 | hpos
    · subst h0; simp [natToDigits, natToDigitsGo, parseDigitsAux]
    · rw [natToDigits_succ n (by omega),
        parseDigitsAux_append _ _ (natToDigits_isDigit (n / 10)) acc,
        ih (n / 10) (by omega) acc]
      have hd : (Char.ofNat (48 + n % 10)).isDigit = true :=
        digitChar_isDigit (Nat.mod_lt _ (by norm_num))
      have ht : (Char.ofNat (48 + n % 10)).toNat = 48 + n % 10 :=
        digitChar_toNat (Nat.mod_lt _ (by norm_num))
      simp only [parseDigitsAux, hd, if_true, ht, List.length_append, List.length_singleton]
      have hdm : 10 * (n / 10) + n % 10 = n := by omega
      set k := (natToDigits (n / 10)).length with hk
      calc 10 * (acc * 10 ^ k + n / 10) + (48 + n % 10 - 48)
          = acc * 10 ^ (k + 1) + (10 * (n / 10) + n % 10) := by ring_nf; omega
        _ = acc * 10 ^ (k + 1) + n := by rw [hdm]

lemma natToDigits_ne_nil (n : Nat) (h : n ≠ 0) : natToDigits n ≠ [] := by
  rw [natToDigits_succ n h]
  simp

lemma jsParseInt_digits (l : List Char) (hne : l ≠ []) (hd : ∀ c ∈ l, c.isDigit = true) :
    jsParseInt ⟨l⟩ = some (parseDigitsAux l 0 : Int) := by
  cases l with
  | nil => exact absurd rfl hne
  | cons c cs =>
    have hc : c.isDigit = true := hd c (List.mem_cons_self c cs)
    have hcm : c ≠ Char.ofNat 45 := by
      intro h; rw [h] at hc; exact absurd hc (by decide)
    have hcp : c ≠ Char.ofNat 43 := by
      intro h; rw [h] at hc; exact absurd hc (by decide)
    show jsParseInt ⟨c :: cs⟩ = _
    simp only [jsParseInt]
    rw [if_neg hcm, if_neg hcp, if_pos hc]

lemma jsParseInt_natToString (n : Nat) : jsParseInt (natToString n) = some (n : Int) := by
  rcases eq_or_ne n 0 with h0 | h0
  · subst h0; decide
  · have : natToString n = ⟨natToDigits n⟩ := by simp [natToString, h0]
    rw [this, jsParseInt_digits _ (natToDigits_ne_nil n h0) (natToDigits_isDigit n),
      parseDigitsAux_natToDigits n 0]
    simp

lemma data_append_mk (a : List Char) (s : String) :
    (String.mk a ++ s).data = a ++ s.data := by
  cases s
  rfl

lemma minus_mk : ("-" : String) = String.mk [Char.ofNat 45] := by decide

lemma jsParseInt_neg_natToString (m : Nat) (hm : m ≠ 0) :
    jsParseInt ("-" ++ natToString m) = some (-(m : Int)) := by
  have hns : natToString m = ⟨natToDigits m⟩ := by simp [natToString, hm]
  obtain ⟨d, rest, hrest⟩ : ∃ d rest, natToDigits m = d :: rest := by
    cases hl : natToDigits m with
    | nil => exact absurd hl (natToDigits_ne_nil m hm)
    | cons d rest => exact ⟨d, rest, rfl⟩
  have hd : d.isDigit = true := by
    apply natToDigits_isDigit m
    rw [hrest]
    exact List.mem_cons_self d rest
  have hparse : parseDigitsAux (natToDigits m) 0 = m := by
    rw [parseDigitsAux_natToDigits m 0]
    simp
  have hwhole : ("-" ++ natToString m) = String.mk (Char.ofNat 45 :: natToDigits m) := by
    rw [hns, minus_mk, String.ext_iff, data_append_mk]
    rfl
  rw [hwhole]
  show jsParseInt ⟨Char.ofNat 45 :: natToDigits m⟩ = _
  simp only [jsParseInt]
  rw [if_pos trivial]
  rw [hrest]
  show (if d.isDigit = true then some (-(parseDigitsAux (d :: rest) 0 : Int)) else none)
      = some (-(m : Int))
  rw [if_pos hd, ← hrest, hparse]

lemma jsParseInt_intToString (i : Int) : jsParseInt (intToString i) = some i := by
  rcases lt_or_ge i 0 with h | h
  · rw [intToString, if_pos h, jsParseInt_neg_natToString i.natAbs (by omega)]
    congr 1
    omega
  · rw [intToString, if_neg (by omega), jsParseInt_natToString]
    congr 1
    omega

lemma natToString_ne_empty (n : Nat) : natToString n ≠ "" := by
  rcases eq_or_ne n 0 with h0 | h0
  · subst h0; decide
  · have : natToString n = ⟨natToDigits n⟩ := by simp [natToString, h0]
    rw [this]
    intro h
    have := congrArg String.data h
    exact natToDigits_ne_nil n h0 this

lemma intToString_ne_empty (i : Int) : intToString i ≠ "" := by
  rw [intToString]
  split
  · intro h
    rw [minus_mk] at h
    have := congrArg String.data h
    rw [data_append_mk] at this
    simp at this
  · exact natToString_ne_empty i.natAbs

lemma parseOptionalInt_intToString (i : Int) :
    parseOptionalInt (some (intToString i)) = some i := by
  simp only [parseOptionalInt]
  rw [if_neg (intToString_ne_empty i), jsParseInt_intToString]

end Pagination

namespace Pagination

lemma getPage_size (pn sh : Option Int) : (getPage pn sh).size = PAGE_SIZE := rfl

lemma getPage_shard (pn sh : Option Int) : (getPage pn sh).shard = sh := rfl

lemma getPage_num_ne_zero (pn sh : Option Int) : (getPage pn sh).num ≠ 0 := by
  cases pn with
  | none => show FIRST_PAGE ≠ 0; decide
  | some n =>
    show (if n ≠ 0 then n else FIRST_PAGE) ≠ 0
    split
    · assumption
    · decide

lemma getPage_num_pos (pn sh : Option Int) (h : ∀ n, pn = some n → 0 ≤ n) :
    1 ≤ (getPage pn sh).num := by
  cases pn with
  | none => show 1 ≤ FIRST_PAGE; decide
  | some n =>
    show 1 ≤ (if n ≠ 0 then n else FIRST_PAGE)
    have := h n rfl
    split
    · omega
    · decide

lemma getNextPage_cases (M : Int) (coll : CountableCollection) (cur p : Page)
    (h : getNextPage M coll cur = some p) :
    p = getPage (some (cur.num + 1)) cur.shard ∨
    (cur.shard.getD DEFAULT_SHARD + 1 ≤ M ∧
      p = getPage (some FIRST_PAGE) (some (cur.shard.getD DEFAULT_SHARD + 1))) := by
  simp only [getNextPage] at h
  split_ifs at h with h1 h2 h3
  · exact Or.inl (Option.some.inj h).symm
  · exact Or.inr ⟨by omega, (Option.some.inj h).symm⟩

lemma countOnPage_eq_zero (coll : CountableCollection) (page : Page)
    (hnum : 1 ≤ page.num) (hsz : page.size = PAGE_SIZE)
    (hc : coll (page.shard.getD DEFAULT_SHARD) = 0) :
    countOnPage coll page = 0 := by
  simp only [countOnPage, queryParameters, hc, hsz, Nat.cast_zero, PAGE_SIZE]
  have hskip : 0 ≤ (page.num - 1) * 10 := mul_nonneg (by omega) (by norm_num)
  omega

end Pagination

namespace Pagination

/-- C1: for every well-formed current page address (number at least 1, size
the collection's fixed `PAGE_SIZE`) and every countable collection,
`getNextPage` returns exactly the result of the spec's algorithm
(`specNextPage`): probe the candidate one page further in the same shard,
then the first page of the next shard unless it exceeds `MAX_SHARDS`. -/
theorem C1_getNextPage_follows_spec_algorithm (M : Int) (coll : CountableCollection)
    (cur : Page) (hnum : 1 ≤ cur.num) (hsize : cur.size = PAGE_SIZE) :
    getNextPage M coll cur = specNextPage M coll cur := by
  have hcand : getPage (some (cur.num + 1)) cur.shard
      = ⟨cur.num + 1, cur.size, cur.shard⟩ := by
    simp only [getPage, hsize]
    rw [if_pos (by omega)]
  have hcand2 : ∀ ns : Int, getPage (some FIRST_PAGE) (some ns)
      = ⟨1, cur.size, some ns⟩ := by
    intro ns
    simp only [getPage, hsize]
    rw [if_pos (by decide)]
    rfl
  simp only [getNextPage, specNextPage, hcand, hcand2, DEFAULT_SHARD]

/-- C1 witness: the theorem applied to Scenario B's collection at the
current page `{num := 1, size := 10, shard := some 0}`. -/
theorem C1_witness :
    (1 : Int) ≤ (⟨1, 10, some 0⟩ : Page).num ∧
    getNextPage 1 collB ⟨1, 10, some 0⟩ = specNextPage 1 collB ⟨1, 10, some 0⟩ :=
  ⟨by decide, C1_getNextPage_follows_spec_algorithm 1 collB ⟨1, 10, some 0⟩
    (by decide) (by decide)⟩

/-- C2: with shard 0 holding 5 items, shard 1 empty, shard 2 holding 5
items, page size 10 and `MAX_SHARDS = 2`, `getNextPage` on
`{num := 1, shard := some 0}` returns `none` although shard 2 holds data:
the resolver probes exactly one shard ahead. -/
theorem C2_one_shard_lookahead_misses_data :
    getNextPage 2 collC ⟨1, 10, some 0⟩ = none ∧ 0 < collC 2 := by decide

/-- C5: with shard 0 holding 5 items, shard 1 holding 5 items, page size 10
and `MAX_SHARDS = 1`, `getNextPage` on `{num := 1, shard := some 0}` rolls
over to the first page of shard 1. -/
theorem C5_shard_rollover :
    getNextPage 1 collB ⟨1, 10, some 0⟩ = some ⟨1, 10, some 1⟩ := by decide

/-- C6: `queryParameters` is a total function returning `take = size`,
`skip = (num - 1) * size` (so `skip = 0` for `num = 1`) and a shard filter
equal to the page's shard when present and `DEFAULT_SHARD` when absent. -/
theorem C6_queryParameters_translation (p : Page) :
    (queryParameters p).take = p.size ∧
    (queryParameters p).skip = (p.num - 1) * p.size ∧
    (∀ s, p.shard = some s → (queryParameters p).shard = s) ∧
    (p.shard = none → (queryParameters p).shard = DEFAULT_SHARD) ∧
    (p.num = 1 → (queryParameters p).skip = 0) := by
  refine ⟨rfl, rfl, ?_, ?_, ?_⟩
  · intro s hs
    simp [queryParameters, hs]
  · intro hs
    simp [queryParameters, hs]
  · intro h1
    simp [queryParameters, h1]

/-- C6 witness: the theorem applied to the page `{num := 1, size := 10,
shard := some 3}`, discharging the inner hypotheses there. -/
theorem C6_witness :
    (queryParameters ⟨1, 10, some 3⟩).take = 10 ∧
    (queryParameters ⟨1, 10, some 3⟩).skip = 0 ∧
    (queryParameters ⟨1, 10, some 3⟩).shard = 3 := by
  have h := C6_queryParameters_translation ⟨1, 10, some 3⟩
  exact ⟨h.1, h.2.2.2.2 rfl, h.2.2.1 3 rfl⟩

/-- C10: `getPage` applied to an explicit raw page number 0 coincides with
`getPage` applied to an absent page number (JavaScript falsiness coerces
`page=0` to the first page), so translation yields offset 0. -/
theorem C10_page_zero_defaults (sh : Option Int) :
    getPage (some 0) sh = getPage none sh ∧
    (queryParameters (getPage (some 0) sh)).skip = 0 := by
  constructor
  · simp [getPage]
  · simp [queryParameters, getPage, FIRST_PAGE]

end Pagination

namespace Pagination

lemma shard_part_ne_empty (s : Int) : "&shard=" ++ intToString s ≠ "" := by
  intro h
  have hlen := congrArg String.length h
  rw [String.length_append] at hlen
  have h7 : ("&shard=" : String).length = 7 := by decide
  have h0 : ("" : String).length = 0 := by decide
  omega

lemma shardQueryPart_eq_empty_iff (p : Page) : shardQueryPart p = "" ↔ p.shard = none := by
  cases hs : p.shard with
  | none => simp [shardQueryPart, hs]
  | some s =>
    simp only [shardQueryPart, hs]
    constructor
    · intro h
      exact absurd h (shard_part_ne_empty s)
    · intro h
      cases h

/-- C3 counterexample: a request with both raw parameters absent, served
against Scenario B's collection with `MAX_SHARDS = 1`, rolls over to shard
1, and the emitted next link carries `shard=1` even though the original
request's shard was absent — refuting the claimed equivalence. -/
theorem C3_counterexample_rollover_link_carries_shard :
    (getPage none none).shard = none ∧
    nextLink "/shifts" (getNextPage 1 collB (getPage none none))
      = some "/shifts?page=1&shard=1" := by decide

/-- C3 (amended): the translated shard filter is `DEFAULT_SHARD` whenever
the raw shard is absent; the emitted next link omits the shard parameter
exactly when the next page's shard is absent, which can happen only if the
original request's shard was absent (on rollover the shard is always
explicit). -/
theorem C3_amended_shard_default_and_link_omission (pn sh : Option Int) (M : Int)
    (coll : CountableCollection) :
    (sh = none → (queryParameters (getPage pn sh)).shard = DEFAULT_SHARD) ∧
    ∀ p, getNextPage M coll (getPage pn sh) = some p →
      ((shardQueryPart p = "" ↔ p.shard = none) ∧ (p.shard = none → sh = none)) := by
  constructor
  · intro hs
    simp [queryParameters, getPage, hs]
  · intro p hp
    refine ⟨shardQueryPart_eq_empty_iff p, ?_⟩
    intro hnone
    rcases getNextPage_cases M coll (getPage pn sh) p hp with h | ⟨_, h⟩
    · rw [h, getPage_shard] at hnone
      rw [getPage_shard] at hnone
      exact hnone
    · rw [h, getPage_shard] at hnone
      cases hnone

/-- C3 witness: the amended theorem applied to the all-absent request of
the counterexample, discharging its hypotheses at that input. -/
theorem C3_amended_witness :
    (queryParameters (getPage none none)).shard = DEFAULT_SHARD ∧
    (shardQueryPart ⟨1, 10, some 1⟩ = "" ↔ (⟨1, 10, some 1⟩ : Page).shard = none) := by
  have h := C3_amended_shard_default_and_link_omission none none 1 collB
  exact ⟨h.1 rfl, (h.2 ⟨1, 10, some 1⟩ (by decide)).1⟩

/-- C4: any page address that `getNextPage` produces — hence any page
address `nextLink` renders into a next-page URL — survives the round trip:
parsing the rendered raw `page` and `shard` parameters with
`parseOptionalInt` and resolving them with `getPage` yields the same page
address, number, size and (possibly absent) shard included. -/
theorem C4_next_link_round_trip (M : Int) (coll : CountableCollection) (cur p : Page)
    (h : getNextPage M coll cur = some p) :
    getPage (parseOptionalInt (linkRawParams p).1)
      (parseOptionalInt (linkRawParams p).2) = p := by
  obtain ⟨hnum, hsize⟩ : p.num ≠ 0 ∧ p.size = PAGE_SIZE := by
    rcases getNextPage_cases M coll cur p h with hp | ⟨_, hp⟩
    · rw [hp]
      exact ⟨getPage_num_ne_zero _ _, rfl⟩
    · rw [hp]
      exact ⟨getPage_num_ne_zero _ _, rfl⟩
  have h1 : parseOptionalInt (linkRawParams p).1 = some p.num :=
    parseOptionalInt_intToString p.num
  have h2 : parseOptionalInt (linkRawParams p).2 = p.shard := by
    show parseOptionalInt (p.shard.map intToString) = p.shard
    cases hs : p.shard with
    | none => rfl
    | some s => exact parseOptionalInt_intToString s
  rw [h1, h2]
  cases p with
  | mk num size shard =>
    simp only at hnum hsize
    simp [getPage, hnum, hsize]

/-- C4 witness: the theorem applied to the rollover page produced in
Scenario B. -/
theorem C4_witness :
    getPage (parseOptionalInt (linkRawParams ⟨1, 10, some 1⟩).1)
      (parseOptionalInt (linkRawParams ⟨1, 10, some 1⟩).2) = ⟨1, 10, some 1⟩ :=
  C4_next_link_round_trip 1 collB ⟨1, 10, some 0⟩ ⟨1, 10, some 1⟩ (by decide)

end Pagination

namespace Pagination

lemma getNextPage_eq_none (M : Int) (coll : CountableCollection) (cur : Page)
    (h1 : countOnPage coll (getPage (some (cur.num + 1)) cur.shard) = 0)
    (h2 : M < cur.shard.getD DEFAULT_SHARD + 1) :
    getNextPage M coll cur = none := by
  simp only [getNextPage]
  rw [if_neg (by simp [h1]), if_pos h2]

/-- C7: a request with an explicit shard strictly beyond `MAX_SHARDS`,
against a collection with no records above `MAX_SHARDS`, keeps the
out-of-range shard as its filter (no clamping), yields an empty data set
(zero records on the requested page) and no next page; `getPage`,
`queryParameters`, `countOnPage` and `getNextPage` are total, so no error
is raised. -/
theorem C7_shard_beyond_max_empty_and_no_next (M : Int) (coll : CountableCollection)
    (pn : Option Int) (s : Int) (hpn : ∀ n, pn = some n → 0 ≤ n) (hs : M < s)
    (hcoll : ∀ t, M < t → coll t = 0) :
    (queryParameters (getPage pn (some s))).shard = s ∧
    countOnPage coll (getPage pn (some s)) = 0 ∧
    getNextPage M coll (getPage pn (some s)) = none := by
  refine ⟨rfl, ?_, ?_⟩
  · exact countOnPage_eq_zero coll _ (getPage_num_pos pn (some s) hpn) rfl (hcoll s hs)
  · apply getNextPage_eq_none
    · refine countOnPage_eq_zero coll _ ?_ rfl ?_
      · apply getPage_num_pos
        intro n hn
        injection hn with hn'
        have := getPage_num_pos pn (some s) hpn
        omega
      · exact hcoll s hs
    · show M < (some s).getD DEFAULT_SHARD + 1
      simp only [Option.getD_some]
      omega

/-- C7 witness: the theorem applied to a two-shard setup (`MAX_SHARDS = 1`,
all data in shard 0) with the request naming shard 2. -/
theorem C7_witness :
    getNextPage 1 (collSingleShard 5) (getPage none (some 2)) = none := by
  have h := C7_shard_beyond_max_empty_and_no_next 1 (collSingleShard 5) none 2
    (by intro n hn; cases hn) (by decide)
    (by intro t ht
        have hne : t ≠ 0 := by omega
        simp [collSingleShard, hne])
  exact h.2.2

/-- C8 counterexample: the raw page number 0 is not passed through —
`getPage(0, −)` yields page number 1, not 0, because the source's
truthiness test treats 0 like an absent value. -/
theorem C8_counterexample_page_zero_not_passed_through :
    (getPage (some 0) none).num ≠ 0 := by decide

/-- C8 (amended): `getPage` produces size `PAGE_SIZE`, passes the raw shard
through unchanged (absence included) and sets the number to the raw page
number except that an absent — or zero, by JavaScript falsiness — raw page
number defaults to 1; it is total, so no input is rejected. -/
theorem C8_amended_getPage_defaults (pn sh : Option Int) :
    (getPage pn sh).size = PAGE_SIZE ∧
    (getPage pn sh).shard = sh ∧
    ((pn = none ∨ pn = some 0) → (getPage pn sh).num = 1) ∧
    (∀ n, pn = some n → n ≠ 0 → (getPage pn sh).num = n) := by
  refine ⟨rfl, rfl, ?_, ?_⟩
  · rintro (h | h) <;> subst h
    · show FIRST_PAGE = 1
      rfl
    · show (if (0 : Int) ≠ 0 then (0 : Int) else FIRST_PAGE) = 1
      rw [if_neg (by omega)]
      rfl
  · intro n h hn
    subst h
    show (if n ≠ 0 then n else FIRST_PAGE) = n
    rw [if_pos hn]

/-- C8 witness: the amended theorem applied to the raw inputs page 5,
shard 2. -/
theorem C8_amended_witness : (getPage (some 5) (some 2)).num = 5 :=
  (C8_amended_getPage_defaults (some 5) (some 2)).2.2.2 5 rfl (by decide)

/-- C9: from a current page with number at least 1 and shard, when present,
within `[0, MAX_SHARDS]`, every page `getNextPage` returns is well-formed:
its number is at least 1 (either the successor of the current number or
exactly 1), its size is `PAGE_SIZE`, and its shard, when present, lies
within `[0, MAX_SHARDS]`. -/
theorem C9_next_page_wellformed (M : Int) (coll : CountableCollection) (cur p : Page)
    (hnum : 1 ≤ cur.num)
    (hshard : ∀ s, cur.shard = some s → 0 ≤ s ∧ s ≤ M)
    (h : getNextPage M coll cur = some p) :
    1 ≤ p.num ∧ (p.num = cur.num + 1 ∨ p.num = 1) ∧ p.size = PAGE_SIZE ∧
    (∀ s, p.shard = some s → 0 ≤ s ∧ s ≤ M) := by
  rcases getNextPage_cases M coll cur p h with hp | ⟨hle, hp⟩
  · subst hp
    have hn : (getPage (some (cur.num + 1)) cur.shard).num = cur.num + 1 := by
      show (if cur.num + 1 ≠ 0 then cur.num + 1 else FIRST_PAGE) = cur.num + 1
      rw [if_pos (by omega)]
    refine ⟨by omega, Or.inl hn, rfl, ?_⟩
    rw [getPage_shard]
    exact hshard
  · subst hp
    have hn : (getPage (some FIRST_PAGE)
        (some (cur.shard.getD DEFAULT_SHARD + 1))).num = 1 := by
      show (if FIRST_PAGE ≠ 0 then FIRST_PAGE else FIRST_PAGE) = 1
      split <;> rfl
    refine ⟨by omega, Or.inr hn, rfl, ?_⟩
    intro s hs
    rw [getPage_shard] at hs
    injection hs with hs'
    refine ⟨?_, by omega⟩
    cases hcs : cur.shard with
    | none =>
      rw [hcs] at hs'
      show (0 : Int) ≤ s
      simp only [Option.getD_none, DEFAULT_SHARD] at hs'
      omega
    | some t =>
      have ht := hshard t hcs
      rw [hcs] at hs'
      simp only [Option.getD_some] at hs'
      omega

/-- C9 witness: the theorem applied to Scenario B's rollover step. -/
theorem C9_witness :
    1 ≤ (⟨1, 10, some 1⟩ : Page).num ∧ (⟨1, 10, some 1⟩ : Page).size = PAGE_SIZE := by
  have h := C9_next_page_wellformed 1 collB ⟨1, 10, some 0⟩ ⟨1, 10, some 1⟩ (by decide)
    (by intro s hs
        injection hs with hs'
        constructor <;> omega)
    (by decide)
  exact ⟨h.1, h.2.2.1⟩

end Pagination
